import Mathlib

/-!
Verification of the derived-value node (`Interpolation`) of
`src/packages/core/src/Interpolation.ts`.

The node is embedded shallowly:

* `Val` models the values flowing through the graph (scalars and flat
  numeric arrays, enough to distinguish deep equality from reference
  equality).
* `Source` models a `FluidValue` dependency.  A source that is a
  `FrameValue` carries a `FrameState` with its `idle` flag and
  `priority`; a plain fluid value has neither (its `idle` reads as
  `undefined`, its `priority` as `0`).
* `Interpolation` is the node's mutable state: the `source` list, the
  mapping function `calcFn`, the `idle` flag, the `priority`, the value
  held by the animated storage cell (`animValue`), the `done` markers of
  the storage payload, the child registrations at each source, and
  whether the node is registered with the global frame loop.

Every operation is a pure function from the state to the new state
paired with the list of events the node emits to its observers during
the call, in emission order.
-/

/-- Values: a scalar number or a flat array of numbers.  Structural
equality on this type is exactly the deep equality the shared `isEqual`
helper implements (two arrays are equal when their elements are). -/
inductive Val where
  | num (n : Int)
  | arr (ns : List Int)
deriving DecidableEq, Repr

/-- Modelled from the spec: the shared `toArray` helper, which wraps a
scalar into a one-element array and spreads an array value. -/
def toArrayVal : Val → List Val
  | .num n => [.num n]
  | .arr ns => ns.map .num

/-- Modelled from the spec: the shared `isEqual` helper performs deep
equality ("deep equality, not reference equality"), which is structural
equality of `Val`. -/
def isEqual (a b : Val) : Bool := a == b

/-- The `FrameValue` part of a source: its `idle` flag and `priority`. -/
structure FrameState where
  idle : Bool
  priority : Nat
deriving DecidableEq, Repr

/-- A source (`FluidValue`): a current value, plus the frame-value state
when the source is a `FrameValue` (`frame = none` models a plain fluid
value, whose `idle` property is `undefined` and whose `priority` is
absent). -/
structure Source where
  value : Val
  frame : Option FrameState
deriving DecidableEq, Repr

/-- Mirrors `isFrameValue(source)`. -/
def Source.isFrameValue (s : Source) : Bool := s.frame.isSome

/-- Mirrors `isIdle`: `source.idle !== false`, so sources with undefined
`idle` are considered "always idle". -/
def Source.isIdle (s : Source) : Bool :=
  match s.frame with
  | some f => f.idle
  | none => true

/-- Mirrors `source.priority || 0`: a source without a priority counts
as priority `0`. -/
def Source.prio (s : Source) : Nat :=
  match s.frame with
  | some f => f.priority
  | none => 0

/-- The `OneOrMore<FluidValue>` argument: a single source or an array of
sources (`is.arr` distinguishes the two in `_get`). -/
inductive Sources where
  | one (s : Source)
  | many (ss : List Source)
deriving DecidableEq, Repr

/-- Mirrors the shared `toArray` applied to the `source` field. -/
def Sources.toArray : Sources → List Source
  | .one s => [s]
  | .many ss => ss

/-- Events a `FrameValue` emits to its children
(`{type: start} | {type: change, value, idle} | {type: priority}`). -/
inductive Event where
  | start
  | change (value : Val) (idle : Bool)
  | priority (p : Nat)
deriving DecidableEq, Repr

/-- The state of an `Interpolation` node.  `animValue` is the value held
by the animated storage cell (`getAnimated(this).getValue()`), `payload`
the `done` flags of the storage payload nodes, `childOf` the node's
registration in each source's child set (parallel to `source.toArray`),
and `inLoop` its registration with `G.frameLoop`. -/
structure Interpolation where
  source : Sources
  calcFn : List Val → Val
  idle : Bool
  priority : Nat
  animValue : Val
  payload : List Bool
  childOf : List Bool
  inLoop : Bool

namespace Interpolation

/-- Mirrors `Interpolation._get`: read each source's current value
(`this.source.map(node => node.get())` when the source is an array,
`toArray(this.source.get())` otherwise) and apply the mapping
function. -/
def _get (st : Interpolation) : Val :=
  let inputs :=
    match st.source with
    | .many ss => ss.map Source.value
    | .one s => toArrayVal s.value
  st.calcFn inputs

/-- All sources idle, i.e. `toArray(self.source).every(isIdle)`. -/
def allIdle (st : Interpolation) : Bool :=
  st.source.toArray.all Source.isIdle

/-- Mirrors `checkIdle`: set `idle` to true if all sources are idle and
return the idle status (`every(isIdle) && (self.idle = true)`). -/
def checkIdle (st : Interpolation) : Interpolation × Bool :=
  if st.allIdle then ({ st with idle := true }, true) else (st, false)

/-- Mirrors `onIdle`: emit one `change` event with the current output
and `idle = true` (`self._onChange(self.get(), true)`), then mark every
payload node as done. -/
def onIdle (st : Interpolation) : Interpolation × List Event :=
  ({ st with payload := st.payload.map fun _ => true },
   [Event.change st.animValue true])

/-- Mirrors `Interpolation.advance`: compute the fresh output; if it is
not deep-equal to the stored one, store it and emit a `change` event
carrying it together with the node's idle flag; otherwise run
`checkIdle` and, when it reports all sources idle, run `onIdle`. -/
def advance (st : Interpolation) : Interpolation × List Event :=
  let value := st._get
  let oldValue := st.animValue
  if isEqual value oldValue = false then
    ({ st with animValue := value }, [Event.change value st.idle])
  else
    let r := st.checkIdle
    if r.2 then onIdle r.1 else (r.1, [])

/-- Mirrors `Interpolation._reset`: reset every payload node (clearing
its `done` marker).  Modelled from the spec: the base-class `_reset`
only resets internal computation state and emits nothing. -/
def _reset (st : Interpolation) : Interpolation :=
  { st with payload := st.payload.map fun _ => false }

/-- Modelled from the spec: the `FrameValue` priority setter records the
new priority and, when it changed, propagates a `priority` event to the
node's observers. -/
def setPriority (st : Interpolation) (p : Nat) : Interpolation × List Event :=
  if st.priority ≠ p then ({ st with priority := p }, [Event.priority p])
  else (st, [])

/-- Mirrors `Interpolation._start` with the global `G.skipAnimation`
flag passed explicitly: clear `idle`, emit the `start` event (modelled
from the spec: the base-class `_start` notifies observers that the node
has begun animating), then either advance once and settle idle
(`skipAnimation`) or register with the frame loop. -/
def _start (st : Interpolation) (skip : Bool) : Interpolation × List Event :=
  let st1 := { st with idle := false }
  let e0 := [Event.start]
  if skip then
    let r1 := st1.advance
    let st3 := { r1.1 with idle := true }
    let r2 := onIdle st3
    (r2.1, e0 ++ r1.2 ++ r2.2)
  else
    ({ st1 with inLoop := true }, e0)

/-- Mirrors `Interpolation._attach`: register as a child of every
source; conjoin the frame-value sources' idle flags (a non-frame source
never clears the local `idle`, so the conjunction equals `allIdle`);
fold the priority as `Math.max(priority, source.priority + 1)` over the
frame-value sources starting from `1`; store the priority through the
setter; and when some source is active, reset and start. -/
def _attach (st : Interpolation) (skip : Bool) : Interpolation × List Event :=
  let srcs := st.source.toArray
  let idle := srcs.all Source.isIdle
  let priority := srcs.foldl
    (fun p s =>
      match s.frame with
      | some f => Nat.max p (f.priority + 1)
      | none => p)
    1
  let st1 := { st with childOf := srcs.map fun _ => true }
  let r1 := st1.setPriority priority
  if idle = false then
    let st3 := r1.1._reset
    let r2 := st3._start skip
    (r2.1, r1.2 ++ r2.2)
  else
    (r1.1, r1.2)

/-- Mirrors `Interpolation._detach`: remove the node from every source's
child set, force `idle = true` (which removes it from the frame loop,
since the driver only ticks non-idle nodes), and run `onIdle`. -/
def _detach (st : Interpolation) : Interpolation × List Event :=
  let st1 := { st with childOf := st.source.toArray.map fun _ => false }
  let st2 := { st1 with idle := true }
  onIdle st2

/-- Mirrors `Interpolation.onParentChange`; the trailing
`super.onParentChange(event)` is modelled from the spec: the base class
forwards the event to the node's own observers. -/
def onParentChange (st : Interpolation) (event : Event) :
    Interpolation × List Event :=
  match event with
  | .start =>
    let r := st.advance
    (r.1, r.2 ++ [event])
  | .change _ pidle =>
    if st.idle then
      let r := st.advance
      (r.1, r.2 ++ [event])
    else if pidle then
      let r := st.checkIdle
      if r.2 then
        let r1 := r.1.advance
        let r2 := onIdle r1.1
        (r2.1, r1.2 ++ r2.2 ++ [event])
      else
        (r.1, [event])
    else
      (st, [event])
  | .priority _ =>
    let p := st.source.toArray.foldl
      (fun m s => Nat.max m (s.prio + 1)) 0
    let r := st.setPriority p
    (r.1, r.2 ++ [event])

/-- The storage payload created for a value: `AnimatedValue` has a
single payload node, `AnimatedArray` one per element; `done` starts
false. -/
def payloadFor : Val → List Bool
  | .num _ => [false]
  | .arr ns => ns.map fun _ => false

/-- Mirrors the constructor: build the mapping function, compute the
initial output by reading each source's current value, and create the
storage cell from it.  `idle` starts true, `priority` 0, and the node is
attached to nothing. -/
def construct (source : Sources) (calcFn : List Val → Val) : Interpolation :=
  let st0 : Interpolation :=
    { source := source, calcFn := calcFn, idle := true, priority := 0,
      animValue := Val.num 0, payload := [], childOf := [],
      inLoop := false }
  let value := st0._get
  { st0 with animValue := value, payload := payloadFor value }

/-- Modelled from the spec: the frame driver ticks a node only while it
is registered and not idle ("idle nodes are not ticked by the frame
driver"). -/
def receivesTicks (st : Interpolation) : Bool :=
  st.inLoop && !st.idle

/-!
Fallible variant of the recompute path, for the error-propagation
behaviour: a source's `get()` or the mapping function may throw.  The
functions mirror the same statements as the total model, but thread an
`Except`: each returns the error result together with the state as it
stands when the exception unwinds (so partial mutation, were there any,
would be visible) and the events emitted before the throw.
-/

/-- Reading the inputs with a fallible per-source read `getE`, mirroring
the two branches of `_get`. -/
def getInputsE (getE : Source → Except String Val) (src : Sources) :
    Except String (List Val) :=
  match src with
  | .many ss => ss.mapM getE
  | .one s => do pure (toArrayVal (← getE s))

/-- Fallible `_get`: read the inputs, then apply the fallible mapping
function `calcE`. -/
def _getE (getE : Source → Except String Val)
    (calcE : List Val → Except String Val) (st : Interpolation) :
    Except String Val := do
  calcE (← getInputsE getE st.source)

/-- Fallible `advance`: the fresh value is computed by the first
statement (`const value = this._get()`); only after it is known good is
the storage cell written.  On a throw the state returned is exactly the
entry state: nothing was mutated yet. -/
def advanceE (getE : Source → Except String Val)
    (calcE : List Val → Except String Val) (st : Interpolation) :
    Except String Unit × Interpolation × List Event :=
  match _getE getE calcE st with
  | .error e => (.error e, st, [])
  | .ok value =>
    if isEqual value st.animValue = false then
      (.ok (), { st with animValue := value }, [Event.change value st.idle])
    else
      let r := st.checkIdle
      if r.2 then (.ok (), onIdle r.1) else (.ok (), r.1, [])

/-- Fallible `onParentChange`: the recompute paths run `advanceE`; a
throw unwinds past the rest of the handler (in particular past the
`super.onParentChange` forward and the trailing `onIdle`). -/
def onParentChangeE (getE : Source → Except String Val)
    (calcE : List Val → Except String Val) (st : Interpolation)
    (event : Event) : Except String Unit × Interpolation × List Event :=
  match event with
  | .start =>
    match advanceE getE calcE st with
    | (.error e, st1, evs) => (.error e, st1, evs)
    | (.ok _, st1, evs) => (.ok (), st1, evs ++ [event])
  | .change _ pidle =>
    if st.idle then
      match advanceE getE calcE st with
      | (.error e, st1, evs) => (.error e, st1, evs)
      | (.ok _, st1, evs) => (.ok (), st1, evs ++ [event])
    else if pidle then
      let r := st.checkIdle
      if r.2 then
        match advanceE getE calcE r.1 with
        | (.error e, st1, evs) => (.error e, st1, evs)
        | (.ok _, st1, evs) =>
          let r2 := onIdle st1
          (.ok (), r2.1, evs ++ r2.2 ++ [event])
      else
        (.ok (), r.1, [event])
    else
      (.ok (), st, [event])
  | .priority _ =>
    let p := st.source.toArray.foldl
      (fun m s => Nat.max m (s.prio + 1)) 0
    let r := st.setPriority p
    (.ok (), r.1, r.2 ++ [event])

/-- The priority `_attach` computes: the fold
`Math.max(priority, source.priority + 1)` over frame-value sources,
starting from `1`. -/
def attachPrio (srcs : List Source) : Nat :=
  srcs.foldl
    (fun p s =>
      match s.frame with
      | some f => Nat.max p (f.priority + 1)
      | none => p)
    1

/-- The priority the `priority`-event handler computes:
`reduce(Math.max(max, (source.priority || 0) + 1), 0)`. -/
def eventPrio (srcs : List Source) : Nat :=
  srcs.foldl (fun m s => Nat.max m (s.prio + 1)) 0

/-- The idle invariant of the data model: the node claims idleness only
when every source is idle (sources without an idle flag counting as
always idle). -/
def IdleInv (st : Interpolation) : Prop :=
  st.idle = true → st.allIdle = true

end Interpolation

/-! Concrete sources and node states used by the counterexamples and the
witnesses below. -/

/-- A frame-value source that has settled (idle, priority 2). -/
def srcFrameIdle : Source := ⟨Val.num 1, some ⟨true, 2⟩⟩

/-- A frame-value source that is still animating (priority 2). -/
def srcFrameActive : Source := ⟨Val.num 1, some ⟨false, 2⟩⟩

/-- A plain fluid value: no idle flag, no priority. -/
def srcPlain : Source := ⟨Val.num 4, none⟩

/-- A single-source node in a given idle state with a given stored
output, attached to its source. -/
def mkNode (s : Source) (f : List Val → Val) (idl : Bool) (v : Val) :
    Interpolation :=
  { source := .one s, calcFn := f, idle := idl, priority := 1,
    animValue := v, payload := [false], childOf := [true],
    inLoop := false }

/-- A mapping function that is constant `5`. -/
def cFive : List Val → Val := fun _ => Val.num 5

/-- A mapping function that is constant `3`. -/
def cThree : List Val → Val := fun _ => Val.num 3

/-- A fallible source read that always succeeds with the current
value. -/
def getOk : Source → Except String Val := fun s => .ok s.value

/-- A mapping function that always throws. -/
def calcThrows : List Val → Except String Val := fun _ => .error "calc threw"

namespace Interpolation

/-! Helper lemmas: the three behaviours of `advance`, and the fields it
never touches. -/

theorem advance_changed (st : Interpolation) (h : st._get ≠ st.animValue) :
    st.advance =
      ({ st with animValue := st._get }, [Event.change st._get st.idle]) := by
  simp [advance, isEqual, h]

theorem advance_unchanged_allIdle (st : Interpolation)
    (h : st._get = st.animValue) (h2 : st.allIdle = true) :
    st.advance = onIdle { st with idle := true } := by
  simp [advance, isEqual, h, checkIdle, h2]

theorem advance_unchanged_active (st : Interpolation)
    (h : st._get = st.animValue) (h2 : st.allIdle = false) :
    st.advance = (st, []) := by
  simp [advance, isEqual, h, checkIdle, h2]

theorem advance_source (st : Interpolation) :
    st.advance.1.source = st.source := by
  by_cases h : st._get = st.animValue
  · by_cases h2 : st.allIdle = true
    · rw [advance_unchanged_allIdle st h h2]; rfl
    · rw [advance_unchanged_active st h (by simpa using h2)]
  · rw [advance_changed st h]

theorem advance_inLoop (st : Interpolation) :
    st.advance.1.inLoop = st.inLoop := by
  by_cases h : st._get = st.animValue
  · by_cases h2 : st.allIdle = true
    · rw [advance_unchanged_allIdle st h h2]; rfl
    · rw [advance_unchanged_active st h (by simpa using h2)]
  · rw [advance_changed st h]

theorem advance_priority (st : Interpolation) :
    st.advance.1.priority = st.priority := by
  by_cases h : st._get = st.animValue
  · by_cases h2 : st.allIdle = true
    · rw [advance_unchanged_allIdle st h h2]; rfl
    · rw [advance_unchanged_active st h (by simpa using h2)]
  · rw [advance_changed st h]

theorem advance_childOf (st : Interpolation) :
    st.advance.1.childOf = st.childOf := by
  by_cases h : st._get = st.animValue
  · by_cases h2 : st.allIdle = true
    · rw [advance_unchanged_allIdle st h h2]; rfl
    · rw [advance_unchanged_active st h (by simpa using h2)]
  · rw [advance_changed st h]

end Interpolation

namespace Interpolation

/-! Reduction lemmas for `setPriority` and the `onParentChange`
branches. -/

theorem setPriority_priority (st : Interpolation) (p : Nat) :
    (st.setPriority p).1.priority = p := by
  by_cases h : st.priority = p <;> simp [setPriority, h]

theorem setPriority_idle (st : Interpolation) (p : Nat) :
    (st.setPriority p).1.idle = st.idle := by
  by_cases h : st.priority = p <;> simp [setPriority, h]

theorem setPriority_inLoop (st : Interpolation) (p : Nat) :
    (st.setPriority p).1.inLoop = st.inLoop := by
  by_cases h : st.priority = p <;> simp [setPriority, h]

theorem setPriority_source (st : Interpolation) (p : Nat) :
    (st.setPriority p).1.source = st.source := by
  by_cases h : st.priority = p <;> simp [setPriority, h]

theorem setPriority_animValue (st : Interpolation) (p : Nat) :
    (st.setPriority p).1.animValue = st.animValue := by
  by_cases h : st.priority = p <;> simp [setPriority, h]

theorem setPriority_payload (st : Interpolation) (p : Nat) :
    (st.setPriority p).1.payload = st.payload := by
  by_cases h : st.priority = p <;> simp [setPriority, h]

theorem setPriority_childOf (st : Interpolation) (p : Nat) :
    (st.setPriority p).1.childOf = st.childOf := by
  by_cases h : st.priority = p <;> simp [setPriority, h]

theorem onParentChange_start (st : Interpolation) :
    st.onParentChange Event.start =
      (st.advance.1, st.advance.2 ++ [Event.start]) := rfl

theorem onParentChange_change_idle (st : Interpolation) (v : Val)
    (pidle : Bool) (h : st.idle = true) :
    st.onParentChange (Event.change v pidle) =
      (st.advance.1, st.advance.2 ++ [Event.change v pidle]) := by
  simp [onParentChange, h]

theorem onParentChange_change_activeSrc (st : Interpolation) (v : Val)
    (h : st.idle = false) :
    st.onParentChange (Event.change v false) =
      (st, [Event.change v false]) := by
  simp [onParentChange, h]

theorem onParentChange_change_notAllIdle (st : Interpolation) (v : Val)
    (h : st.idle = false) (h1 : st.allIdle = false) :
    st.onParentChange (Event.change v true) =
      (st, [Event.change v true]) := by
  simp [onParentChange, h, checkIdle, h1]

theorem onParentChange_idleProp (st : Interpolation) (v : Val)
    (h : st.idle = false) (h1 : st.allIdle = true) :
    st.onParentChange (Event.change v true) =
      ((onIdle ({ st with idle := true }).advance.1).1,
        ({ st with idle := true }).advance.2 ++
          (onIdle ({ st with idle := true }).advance.1).2 ++
          [Event.change v true]) := by
  simp [onParentChange, h, checkIdle, h1]

theorem onParentChange_priority (st : Interpolation) (p : Nat) :
    st.onParentChange (Event.priority p) =
      ((st.setPriority (eventPrio st.source.toArray)).1,
        (st.setPriority (eventPrio st.source.toArray)).2 ++
          [Event.priority p]) := by
  simp [onParentChange, eventPrio]

/-! Facts about the two priority folds. -/

theorem le_foldl_max (g : Source → Nat) (l : List Source) (init : Nat) :
    init ≤ l.foldl (fun a s => Nat.max a (g s)) init := by
  induction l generalizing init with
  | nil => exact Nat.le_refl _
  | cons s t ih =>
    exact Nat.le_trans (Nat.le_max_left _ _) (ih (Nat.max init (g s)))

theorem mem_le_foldl_max (g : Source → Nat) (l : List Source) :
    ∀ (init : Nat) (s : Source), s ∈ l →
      g s ≤ l.foldl (fun a s => Nat.max a (g s)) init := by
  induction l with
  | nil => intro init s hs; cases hs
  | cons a t ih =>
    intro init s hs
    rcases List.mem_cons.mp hs with h | h
    · subst h
      exact Nat.le_trans (Nat.le_max_right _ _)
        (le_foldl_max g t (Nat.max init (g s)))
    · exact ih (Nat.max init (g a)) s h

theorem attachPrio_eq (srcs : List Source) :
    attachPrio srcs = srcs.foldl (fun a s => Nat.max a (s.prio + 1)) 1 := by
  have aux : ∀ (l : List Source) (init : Nat), 1 ≤ init →
      l.foldl
        (fun p s =>
          match s.frame with
          | some f => Nat.max p (f.priority + 1)
          | none => p)
        init
        = l.foldl (fun a s => Nat.max a (s.prio + 1)) init := by
    intro l
    induction l with
    | nil => intro init _; rfl
    | cons s t ih =>
      intro init hinit
      cases hf : s.frame with
      | some f =>
        simp only [List.foldl_cons, hf, Source.prio]
        exact ih (Nat.max init (f.priority + 1))
          (Nat.le_trans hinit (Nat.le_max_left _ _))
      | none =>
        simp only [List.foldl_cons, hf, Source.prio]
        have hmax : Nat.max init (0 + 1) = init := Nat.max_eq_left hinit
        rw [hmax]
        exact ih init hinit
  exact aux srcs 1 (Nat.le_refl 1)

end Interpolation

namespace Interpolation

/-! Projection facts for `onIdle`, `_reset`, `_start` and `_attach`. -/

theorem onIdle_idle (st : Interpolation) : (onIdle st).1.idle = st.idle := rfl

theorem onIdle_priority (st : Interpolation) :
    (onIdle st).1.priority = st.priority := rfl

theorem onIdle_inLoop (st : Interpolation) :
    (onIdle st).1.inLoop = st.inLoop := rfl

theorem onIdle_source (st : Interpolation) :
    (onIdle st).1.source = st.source := rfl

theorem onIdle_childOf (st : Interpolation) :
    (onIdle st).1.childOf = st.childOf := rfl

theorem onIdle_animValue (st : Interpolation) :
    (onIdle st).1.animValue = st.animValue := rfl

theorem onIdle_payload (st : Interpolation) :
    (onIdle st).1.payload = st.payload.map fun _ => true := rfl

theorem onIdle_events (st : Interpolation) :
    (onIdle st).2 = [Event.change st.animValue true] := rfl

theorem _reset_priority (st : Interpolation) :
    st._reset.priority = st.priority := rfl

theorem _reset_source (st : Interpolation) :
    st._reset.source = st.source := rfl

theorem _start_priority (st : Interpolation) (skip : Bool) :
    (st._start skip).1.priority = st.priority := by
  cases skip with
  | false => rfl
  | true => exact advance_priority { st with idle := false }

theorem _start_childOf (st : Interpolation) (skip : Bool) :
    (st._start skip).1.childOf = st.childOf := by
  cases skip with
  | false => rfl
  | true => exact advance_childOf { st with idle := false }

theorem _start_inLoop_skip (st : Interpolation) :
    (st._start true).1.inLoop = st.inLoop :=
  advance_inLoop { st with idle := false }

theorem _start_idle_skip (st : Interpolation) :
    (st._start true).1.idle = true := rfl

theorem _attach_active (st : Interpolation) (skip : Bool)
    (h : st.allIdle = false) :
    st._attach skip =
      ((((({ st with childOf := st.source.toArray.map fun _ => true
          }).setPriority (attachPrio st.source.toArray)).1._reset)._start
          skip).1,
        (({ st with childOf := st.source.toArray.map fun _ => true
          }).setPriority (attachPrio st.source.toArray)).2 ++
          ((((({ st with childOf := st.source.toArray.map fun _ => true
              }).setPriority (attachPrio st.source.toArray)).1._reset)._start
              skip).2)) := by
  have h' : st.source.toArray.all Source.isIdle = false := h
  simp [_attach, h', attachPrio]

theorem _attach_idleSources (st : Interpolation) (skip : Bool)
    (h : st.allIdle = true) :
    st._attach skip =
      (({ st with childOf := st.source.toArray.map fun _ => true
        }).setPriority (attachPrio st.source.toArray)) := by
  have h' : st.source.toArray.all Source.isIdle = true := h
  simp [_attach, h', attachPrio]

theorem _attach_priority (st : Interpolation) (skip : Bool) :
    (st._attach skip).1.priority = attachPrio st.source.toArray := by
  by_cases h : st.allIdle = true
  · rw [_attach_idleSources st skip h]
    exact setPriority_priority _ _
  · rw [_attach_active st skip (by simpa using h)]
    rw [_start_priority, _reset_priority]
    exact setPriority_priority _ _

theorem _attach_childOf (st : Interpolation) (skip : Bool) :
    (st._attach skip).1.childOf = st.source.toArray.map fun _ => true := by
  by_cases h : st.allIdle = true
  · rw [_attach_idleSources st skip h]
    rw [setPriority_childOf]
  · rw [_attach_active st skip (by simpa using h)]
    rw [_start_childOf]
    show (({ st with childOf := st.source.toArray.map fun _ => true
        }).setPriority (attachPrio st.source.toArray)).1.childOf
        = st.source.toArray.map fun _ => true
    rw [setPriority_childOf]

end Interpolation

open Interpolation in
/-- Claim C1, counterexample: `advance` emits the node's *current* idle
flag, not always `false`.  On an attached node whose idle flag is true
(as happens when a change event from a non-animated parent triggers
`advance` via `onParentChange`), a fresh output `5` differing from the
stored `3` is emitted with idle flag `true`, contradicting the claim's
"change event carrying the new value and the idle flag false". -/
theorem C1_counterexample :
    (mkNode srcPlain cFive true (Val.num 3)).advance.2
        = [Event.change (Val.num 5) true] ∧
    (mkNode srcPlain cFive true (Val.num 3)).advance.2
        ≠ [Event.change (Val.num 5) false] := by
  exact ⟨rfl, by decide⟩

open Interpolation in
/-- Claim C1 (amended): for every call to `advance` on an attached node:
it computes a fresh output from the sources' current values and the
mapping function; if the fresh output is not deep-equal to the stored
output it replaces it and emits exactly one change event carrying the
new value and the node's *current* idle flag (which is `false` whenever
the frame loop is driving the node); if the fresh output is deep-equal
and every source reports idle, the idle flag is set and the idle-settle
sequence runs; if the fresh output is deep-equal and some source is not
idle, no event is emitted and the state is unchanged. -/
theorem C1_advance_amended (st : Interpolation) :
    (st._get ≠ st.animValue →
      st.advance.1.animValue = st._get ∧
      st.advance.2 = [Event.change st._get st.idle]) ∧
    (st._get = st.animValue → st.allIdle = true →
      st.advance.1.idle = true ∧
      st.advance.1.animValue = st.animValue ∧
      st.advance.2 = [Event.change st.animValue true] ∧
      st.advance.1.payload = st.payload.map fun _ => true) ∧
    (st._get = st.animValue → st.allIdle = false →
      st.advance.1 = st ∧ st.advance.2 = []) := by
  refine ⟨fun h => ?_, fun h h2 => ?_, fun h h2 => ?_⟩
  · rw [advance_changed st h]
    exact ⟨rfl, rfl⟩
  · rw [advance_unchanged_allIdle st h h2]
    exact ⟨rfl, rfl, rfl, rfl⟩
  · rw [advance_unchanged_active st h h2]
    exact ⟨rfl, rfl⟩

open Interpolation in
/-- Witness for the amended C1: a concrete in-loop node (idle flag
false) whose fresh output `5` differs from the stored `3` stores `5` and
emits exactly one change event `(5, false)`. -/
theorem C1_advance_amended_witness :
    (mkNode srcPlain cFive false (Val.num 3)).advance.1.animValue
        = Val.num 5 ∧
    (mkNode srcPlain cFive false (Val.num 3)).advance.2
        = [Event.change (Val.num 5) false] :=
  (C1_advance_amended (mkNode srcPlain cFive false (Val.num 3))).1
    (by decide)

open Interpolation in
/-- Claim C2: after `_attach` and after a `priority` event is handled,
the node's priority is at least 1 and strictly greater than the priority
of every source (a source without a priority counting as 0, as in
`source.priority || 0`). -/
theorem C2_priority_dominates (st : Interpolation) (skip : Bool) (p : Nat)
    (h : st.source.toArray ≠ []) :
    (1 ≤ (st._attach skip).1.priority ∧
      ∀ s ∈ st.source.toArray, s.prio < (st._attach skip).1.priority) ∧
    (1 ≤ (st.onParentChange (Event.priority p)).1.priority ∧
      ∀ s ∈ st.source.toArray,
        s.prio < (st.onParentChange (Event.priority p)).1.priority) := by
  constructor
  · rw [_attach_priority st skip, attachPrio_eq]
    constructor
    · exact le_foldl_max (fun s => s.prio + 1) st.source.toArray 1
    · intro s hs
      exact Nat.lt_of_succ_le
        (mem_le_foldl_max (fun s => s.prio + 1) st.source.toArray 1 s hs)
  · rw [onParentChange_priority st p, setPriority_priority]
    constructor
    · rcases List.exists_mem_of_ne_nil st.source.toArray h with ⟨s, hs⟩
      exact Nat.le_trans (Nat.le_add_left 1 s.prio)
        (mem_le_foldl_max (fun s => s.prio + 1) st.source.toArray 0 s hs)
    · intro s hs
      exact Nat.lt_of_succ_le
        (mem_le_foldl_max (fun s => s.prio + 1) st.source.toArray 0 s hs)

open Interpolation in
/-- Witness for C2: on a node with the single source `srcFrameIdle`
(priority 2), attach and the priority event both leave the node's
priority at least 1 and strictly above the source's. -/
theorem C2_priority_dominates_witness :
    1 ≤ ((mkNode srcFrameIdle cFive true (Val.num 5))._attach false).1.priority ∧
    srcFrameIdle.prio <
      ((mkNode srcFrameIdle cFive true (Val.num 5))._attach false).1.priority ∧
    srcFrameIdle.prio <
      ((mkNode srcFrameIdle cFive true (Val.num 5)).onParentChange
        (Event.priority 0)).1.priority := by
  have h := C2_priority_dominates
    (mkNode srcFrameIdle cFive true (Val.num 5)) false 0 (by decide)
  exact ⟨h.1.1, h.1.2 srcFrameIdle (by decide), h.2.2 srcFrameIdle (by decide)⟩

open Interpolation in
/-- Claim C3, counterexample: the idle-settle sequence is *not*
performed exactly once per active-to-idle transition.  On a non-idle
node with one idle frame source and an unchanged output, the change
event reporting the source idle makes the node transition to idle while
emitting the terminal change event `(3, idle = true)` twice (once from
the recompute inside `advance`, once from the trailing `onIdle`),
contradicting "emits exactly one final change event ... exactly once per
transition". -/
theorem C3_counterexample :
    (mkNode srcFrameIdle cThree false (Val.num 3)).idle = false ∧
    ((mkNode srcFrameIdle cThree false (Val.num 3)).onParentChange
        (Event.change (Val.num 9) true)).1.idle = true ∧
    ((mkNode srcFrameIdle cThree false (Val.num 3)).onParentChange
        (Event.change (Val.num 9) true)).2.count
        (Event.change (Val.num 3) true) = 2 := by
  decide

open Interpolation in
/-- Claim C3 (amended): whenever the node transitions to idle, the
idle-settle sequence emits a final change event carrying the current
stored output and `idle = true` and then marks every payload element
done; the detach and advance paths perform it exactly once, but the
parent-change idle-propagation callback emits the terminal change event
twice (the settle sequence itself runs twice when the recomputed output
is unchanged, and once preceded by an identical change emission from the
recompute when it changed). -/
theorem C3_idleSettle_amended (st : Interpolation) (v : Val) :
    (st._detach.2 = [Event.change st.animValue true] ∧
      st._detach.1.idle = true ∧
      st._detach.1.payload = st.payload.map fun _ => true) ∧
    (st._get = st.animValue → st.allIdle = true →
      st.advance.2 = [Event.change st.animValue true] ∧
      st.advance.1.payload = st.payload.map fun _ => true) ∧
    (st.idle = false → st.allIdle = true → st._get = st.animValue →
      (st.onParentChange (Event.change v true)).2 =
        [Event.change st.animValue true, Event.change st.animValue true,
          Event.change v true]) ∧
    (st.idle = false → st.allIdle = true → st._get ≠ st.animValue →
      (st.onParentChange (Event.change v true)).2 =
        [Event.change st._get true, Event.change st._get true,
          Event.change v true]) := by
  refine ⟨⟨rfl, rfl, rfl⟩, fun h h2 => ?_, fun h0 h1 h => ?_,
    fun h0 h1 h => ?_⟩
  · rw [advance_unchanged_allIdle st h h2]
    exact ⟨rfl, rfl⟩
  · rw [onParentChange_idleProp st v h0 h1]
    have h' : ({ st with idle := true })._get
        = ({ st with idle := true }).animValue := h
    have h1' : ({ st with idle := true }).allIdle = true := h1
    rw [advance_unchanged_allIdle _ h' h1']
    rfl
  · rw [onParentChange_idleProp st v h0 h1]
    have h' : ({ st with idle := true })._get
        ≠ ({ st with idle := true }).animValue := h
    rw [advance_changed _ h']
    rfl

open Interpolation in
/-- Witness for the amended C3: on a concrete non-idle node with idle
source and unchanged output `3`, the idle-propagation callback emits the
terminal change event twice and then forwards the parent event. -/
theorem C3_idleSettle_amended_witness :
    ((mkNode srcFrameIdle cThree false (Val.num 3)).onParentChange
        (Event.change (Val.num 9) true)).2 =
      [Event.change (Val.num 3) true, Event.change (Val.num 3) true,
        Event.change (Val.num 9) true] :=
  (C3_idleSettle_amended (mkNode srcFrameIdle cThree false (Val.num 3))
    (Val.num 9)).2.2.1 (by decide) (by decide) (by decide)

open Interpolation in
/-- Claim C4: a change event reporting its source idle, received while
the node is not idle and once every source is idle, makes the node
recompute (its stored output equals the fresh value), set its idle flag,
run the idle-settle sequence (payload all done), and emit a terminal
change event with `idle = true` within that callback. -/
theorem C4_idle_convergence (st : Interpolation) (v : Val)
    (h0 : st.idle = false) (h1 : st.allIdle = true) :
    (st.onParentChange (Event.change v true)).1.idle = true ∧
    (st.onParentChange (Event.change v true)).1.animValue = st._get ∧
    (st.onParentChange (Event.change v true)).1.payload
        = st.payload.map (fun _ => true) ∧
    Event.change st._get true ∈ (st.onParentChange (Event.change v true)).2 := by
  rw [onParentChange_idleProp st v h0 h1]
  by_cases h : st._get = st.animValue
  · have h' : ({ st with idle := true })._get
        = ({ st with idle := true }).animValue := h
    have h1' : ({ st with idle := true }).allIdle = true := h1
    rw [advance_unchanged_allIdle _ h' h1']
    refine ⟨rfl, h.symm, ?_, ?_⟩
    · show (st.payload.map fun _ => true).map (fun _ => true)
          = st.payload.map fun _ => true
      simp [List.map_map, Function.comp]
    · show Event.change st._get true ∈
        [Event.change st.animValue true, Event.change st.animValue true,
          Event.change v true]
      rw [h]
      exact List.mem_cons_self _ _
  · have h' : ({ st with idle := true })._get
        ≠ ({ st with idle := true }).animValue := h
    rw [advance_changed _ h']
    refine ⟨rfl, rfl, rfl, ?_⟩
    show Event.change st._get true ∈
      [Event.change st._get true, Event.change st._get true,
        Event.change v true]
    exact List.mem_cons_self _ _

open Interpolation in
/-- Witness for C4: a concrete non-idle node whose single frame source
is idle converges: after the callback the node is idle, stores the fresh
output `5`, and a terminal `(5, idle = true)` change event was
emitted. -/
theorem C4_idle_convergence_witness :
    ((mkNode srcFrameIdle cFive false (Val.num 3)).onParentChange
        (Event.change (Val.num 1) true)).1.idle = true ∧
    ((mkNode srcFrameIdle cFive false (Val.num 3)).onParentChange
        (Event.change (Val.num 1) true)).1.animValue = Val.num 5 ∧
    Event.change (Val.num 5) true ∈
      ((mkNode srcFrameIdle cFive false (Val.num 3)).onParentChange
        (Event.change (Val.num 1) true)).2 := by
  have h := C4_idle_convergence (mkNode srcFrameIdle cFive false (Val.num 3))
    (Val.num 1) (by decide) (by decide)
  exact ⟨h.1, h.2.1, h.2.2.2⟩

open Interpolation in
/-- Claim C5, counterexample: with the global `skipAnimation` flag set,
`_attach` on a node with a non-idle source does *not* start frame-loop
participation — it advances once and settles idle instead — so the
claim's unconditional "if any source is not idle it ... starts
participating in the frame loop" fails. -/
theorem C5_counterexample :
    srcFrameActive.isIdle = false ∧
    ((mkNode srcFrameActive cFive true (Val.num 5))._attach true).1.inLoop
        = false ∧
    ((mkNode srcFrameActive cFive true (Val.num 5))._attach true).1.idle
        = true := by
  decide

open Interpolation in
/-- Claim C5 (amended): `_attach` registers the node as a child of every
source and sets its priority to the fold of `source priority + 1` with
minimum 1; if all sources are idle (non-frame sources counting as idle)
the node keeps its idle flag and frame-loop status; if some source is
not idle it resets its payload and starts — joining the frame loop when
`skipAnimation` is unset, but advancing once and settling idle without
joining the loop when `skipAnimation` is set. -/
theorem C5_attach_amended (st : Interpolation) (skip : Bool) :
    (st._attach skip).1.childOf = st.source.toArray.map (fun _ => true) ∧
    (st._attach skip).1.priority
        = st.source.toArray.foldl (fun a s => Nat.max a (s.prio + 1)) 1 ∧
    (st.allIdle = true →
      (st._attach skip).1.idle = st.idle ∧
      (st._attach skip).1.inLoop = st.inLoop) ∧
    (st.allIdle = false → skip = false →
      (st._attach skip).1.idle = false ∧
      (st._attach skip).1.inLoop = true ∧
      (st._attach skip).1.payload = st.payload.map fun _ => false) ∧
    (st.allIdle = false → skip = true →
      (st._attach skip).1.idle = true ∧
      (st._attach skip).1.inLoop = st.inLoop) := by
  refine ⟨_attach_childOf st skip, ?_, fun h => ?_, fun h hsk => ?_,
    fun h hsk => ?_⟩
  · rw [_attach_priority st skip, attachPrio_eq]
  · rw [_attach_idleSources st skip h]
    exact ⟨setPriority_idle _ _, setPriority_inLoop _ _⟩
  · subst hsk
    rw [_attach_active st false h]
    refine ⟨rfl, rfl, ?_⟩
    show (({ st with childOf := st.source.toArray.map fun _ => true
        }).setPriority (attachPrio st.source.toArray)).1.payload.map
          (fun _ => false)
        = st.payload.map fun _ => false
    rw [setPriority_payload]
  · subst hsk
    rw [_attach_active st true h]
    refine ⟨_start_idle_skip _, ?_⟩
    rw [_start_inLoop_skip]
    show (({ st with childOf := st.source.toArray.map fun _ => true
        }).setPriority (attachPrio st.source.toArray)).1.inLoop = st.inLoop
    rw [setPriority_inLoop]

open Interpolation in
/-- Witness for the amended C5: attaching a concrete node to its single
active source (priority 2, not idle) with `skipAnimation` unset
registers the child, sets priority 3, clears the idle flag and joins the
frame loop. -/
theorem C5_attach_amended_witness :
    ((mkNode srcFrameActive cFive true (Val.num 5))._attach false).1.childOf
        = [true] ∧
    ((mkNode srcFrameActive cFive true (Val.num 5))._attach false).1.priority
        = 3 ∧
    ((mkNode srcFrameActive cFive true (Val.num 5))._attach false).1.idle
        = false ∧
    ((mkNode srcFrameActive cFive true (Val.num 5))._attach false).1.inLoop
        = true := by
  have h := C5_attach_amended (mkNode srcFrameActive cFive true (Val.num 5))
    false
  have h4 := h.2.2.2.1 (by decide) rfl
  exact ⟨h.1, by rw [h.2.1]; decide, h4.1, h4.2.1⟩

open Interpolation in
/-- Claim C6: `_detach` removes the node from every source's child set,
forces the idle flag, emits exactly the final idle-settle change event
with the stored output and `idle = true`, marks the payload done, and
the node no longer receives frame ticks (the driver only ticks non-idle
registered nodes). -/
theorem C6_detach_cleanup (st : Interpolation) :
    st._detach.1.childOf = st.source.toArray.map (fun _ => false) ∧
    st._detach.1.idle = true ∧
    st._detach.2 = [Event.change st.animValue true] ∧
    st._detach.1.payload = st.payload.map (fun _ => true) ∧
    st._detach.1.receivesTicks = false := by
  refine ⟨rfl, rfl, rfl, rfl, ?_⟩
  have hidle : st._detach.1.idle = true := rfl
  simp [receivesTicks, hidle]

open Interpolation in
/-- Claim C7, counterexample: the "idle only if all sources idle"
invariant is not preserved by `_detach`: detaching while the single
frame source is still animating forces `idle = true` even though the
source is not idle. -/
theorem C7_counterexample :
    (mkNode srcFrameActive cFive false (Val.num 5)).allIdle = false ∧
    (mkNode srcFrameActive cFive false (Val.num 5))._detach.1.idle = true ∧
    (mkNode srcFrameActive cFive false (Val.num 5))._detach.1.allIdle
        = false := by
  decide

namespace Interpolation

/-! Preservation of the idle invariant by the individual operations. -/

theorem advance_IdleInv (st : Interpolation) (h : st.IdleInv) :
    st.advance.1.IdleInv := by
  by_cases hc : st._get = st.animValue
  · by_cases h2 : st.allIdle = true
    · rw [advance_unchanged_allIdle st hc h2]
      intro _
      exact h2
    · rw [advance_unchanged_active st hc (by simpa using h2)]
      exact h
  · rw [advance_changed st hc]
    exact h

theorem onParentChange_IdleInv (st : Interpolation) (ev : Event)
    (h : st.IdleInv) : (st.onParentChange ev).1.IdleInv := by
  cases ev with
  | start =>
    rw [onParentChange_start]
    exact advance_IdleInv st h
  | change v pidle =>
    by_cases h0 : st.idle = true
    · rw [onParentChange_change_idle st v pidle h0]
      exact advance_IdleInv st h
    · have h0' : st.idle = false := by simpa using h0
      cases pidle with
      | false =>
        rw [onParentChange_change_activeSrc st v h0']
        exact h
      | true =>
        by_cases h1 : st.allIdle = true
        · rw [onParentChange_idleProp st v h0' h1]
          intro _
          show (({ st with idle := true }).advance.1).allIdle = true
          simp only [allIdle]
          rw [advance_source]
          exact h1
        · rw [onParentChange_change_notAllIdle st v h0' (by simpa using h1)]
          exact h
  | priority p =>
    rw [onParentChange_priority]
    intro hi
    rw [setPriority_idle] at hi
    show (st.setPriority (eventPrio st.source.toArray)).1.allIdle = true
    simp only [allIdle]
    rw [setPriority_source]
    exact h hi

end Interpolation

open Interpolation in
/-- Claim C7 (amended): the invariant "idle only if every source is
idle" holds after construction when all sources are idle, and is
preserved by `advance`, by every `onParentChange` event, and by `_start`
and `_attach` when `skipAnimation` is unset; `_detach` (and `_start`
under `skipAnimation`) instead force `idle = true` regardless of the
sources. -/
theorem C7_idleInv_amended :
    (∀ (src : Sources) (f : List Val → Val),
        (Sources.toArray src).all Source.isIdle = true →
        (Interpolation.construct src f).IdleInv) ∧
    (∀ st : Interpolation, st.IdleInv → st.advance.1.IdleInv) ∧
    (∀ (st : Interpolation) (ev : Event),
        st.IdleInv → (st.onParentChange ev).1.IdleInv) ∧
    (∀ st : Interpolation, (st._start false).1.IdleInv) ∧
    (∀ st : Interpolation, (st._attach false).1.IdleInv) := by
  refine ⟨fun src f h => ?_, advance_IdleInv, onParentChange_IdleInv,
    fun st => ?_, fun st => ?_⟩
  · intro _
    exact h
  · intro hi
    have hfalse : (st._start false).1.idle = false := rfl
    rw [hfalse] at hi
    exact Bool.noConfusion hi
  · by_cases h : st.allIdle = true
    · rw [_attach_idleSources st false h]
      intro _
      show (({ st with childOf := st.source.toArray.map fun _ => true
          }).setPriority (attachPrio st.source.toArray)).1.allIdle = true
      simp only [allIdle]
      rw [setPriority_source]
      exact h
    · rw [_attach_active st false (by simpa using h)]
      intro hi
      have hfalse :
          ((((({ st with childOf := st.source.toArray.map fun _ => true
            }).setPriority (attachPrio st.source.toArray)).1._reset)._start
            false).1).idle = false := rfl
      rw [hfalse] at hi
      exact Bool.noConfusion hi

open Interpolation in
/-- Witness for the amended C7: a node constructed over the idle frame
source satisfies the invariant's conclusion — all its sources are
idle. -/
theorem C7_idleInv_amended_witness :
    (Interpolation.construct (Sources.one srcFrameIdle) cFive).allIdle
        = true :=
  C7_idleInv_amended.1 (Sources.one srcFrameIdle) cFive (by decide)
    (by decide)

open Interpolation in
/-- Claim C8: if reading a source or applying the mapping function
fails during `advance` (or during a recompute triggered by a parent
event), the error propagates to the caller and the stored output is
untouched — the storage cell is only written after the fresh value has
been computed successfully. -/
theorem C8_error_propagation (getE : Source → Except String Val)
    (calcE : List Val → Except String Val) (st : Interpolation) (e : String)
    (h : Interpolation._getE getE calcE st = .error e) :
    Interpolation.advanceE getE calcE st = (.error e, st, []) ∧
    (∀ ev : Event,
      (Interpolation.onParentChangeE getE calcE st ev).2.1.animValue
        = st.animValue) ∧
    (Interpolation.onParentChangeE getE calcE st Event.start).1
        = .error e := by
  have hadv : Interpolation.advanceE getE calcE st = (.error e, st, []) := by
    simp [advanceE, h]
  refine ⟨hadv, fun ev => ?_, ?_⟩
  · cases ev with
    | start => simp [onParentChangeE, hadv]
    | change v pidle =>
      by_cases h0 : st.idle = true
      · simp [onParentChangeE, h0, hadv]
      · have h0' : st.idle = false := by simpa using h0
        cases pidle with
        | false => simp [onParentChangeE, h0']
        | true =>
          by_cases h1 : st.allIdle = true
          · have hadv' : Interpolation.advanceE getE calcE
                { st with idle := true }
                = (.error e, { st with idle := true }, []) := by
              have h' : Interpolation._getE getE calcE
                  { st with idle := true } = .error e := h
              simp [advanceE, h']
            simp [onParentChangeE, h0', checkIdle, h1, hadv']
          · have h1' : st.allIdle = false := by simpa using h1
            simp [onParentChangeE, h0', checkIdle, h1']
    | priority p =>
      simp [onParentChangeE]
      exact setPriority_animValue _ _
  · simp [onParentChangeE, hadv]

open Interpolation in
/-- Witness for C8: on a concrete node whose mapping function throws,
`advanceE` returns the error with the state exactly as it was — stored
output `3` unmodified and no event emitted. -/
theorem C8_error_propagation_witness :
    Interpolation.advanceE getOk calcThrows
        (mkNode srcPlain cFive true (Val.num 3))
      = (.error "calc threw", mkNode srcPlain cFive true (Val.num 3), []) :=
  (C8_error_propagation getOk calcThrows
    (mkNode srcPlain cFive true (Val.num 3)) "calc threw" rfl).1

open Interpolation in
/-- Claim C9: when `skipAnimation` is set, `_start` performs one
synchronous advance, resets the idle flag to true and runs the
idle-settle sequence (the event trace is exactly the start event, the
advance emission, and the settle event) instead of registering with the
frame loop; `_attach` in this mode never joins the frame loop, even with
a non-idle source. -/
theorem C9_skipAnimation (st : Interpolation) :
    (st._start true).1.idle = true ∧
    (st._start true).1.inLoop = st.inLoop ∧
    (st._start true).2 =
      Event.start ::
        (({ st with idle := false }).advance.2 ++
          [Event.change ({ st with idle := false }).advance.1.animValue
            true]) ∧
    (st._attach true).1.inLoop = st.inLoop ∧
    (st.allIdle = false → (st._attach true).1.idle = true) := by
  refine ⟨_start_idle_skip st, _start_inLoop_skip st, rfl, ?_, fun h => ?_⟩
  · by_cases h : st.allIdle = true
    · rw [_attach_idleSources st true h]
      exact setPriority_inLoop _ _
    · rw [_attach_active st true (by simpa using h)]
      rw [_start_inLoop_skip]
      show (({ st with childOf := st.source.toArray.map fun _ => true
          }).setPriority (attachPrio st.source.toArray)).1.inLoop = st.inLoop
      rw [setPriority_inLoop]
  · rw [_attach_active st true h]
    exact _start_idle_skip _

open Interpolation in
/-- Witness for C9: attaching a concrete node to its non-idle source
with `skipAnimation` set leaves the node settled idle (and, per the
counterexample-free conjuncts, outside the frame loop). -/
theorem C9_skipAnimation_witness :
    ((mkNode srcFrameActive cFive true (Val.num 5))._attach true).1.idle
        = true :=
  (C9_skipAnimation (mkNode srcFrameActive cFive true (Val.num 5))).2.2.2.2
    (by decide)

open Interpolation in
/-- Claim C10: on the idle-propagation path of `onParentChange`,
`checkIdle` sets the idle flag before `advance` runs, so when the
recomputed value differs from the stored output the advance emission
carries `idle = true`, followed by the idle-settle emission with
`idle = true` — two change events from the node within one callback
(the forwarded parent event follows them). -/
theorem C10_two_change_events (st : Interpolation) (v : Val)
    (h0 : st.idle = false) (h1 : st.allIdle = true)
    (h2 : st._get ≠ st.animValue) :
    (st.onParentChange (Event.change v true)).2 =
      [Event.change st._get true, Event.change st._get true,
        Event.change v true] ∧
    (st.onParentChange (Event.change v true)).1.idle = true ∧
    (st.onParentChange (Event.change v true)).1.animValue = st._get := by
  rw [onParentChange_idleProp st v h0 h1]
  have h' : ({ st with idle := true })._get
      ≠ ({ st with idle := true }).animValue := h2
  rw [advance_changed _ h']
  exact ⟨rfl, rfl, rfl⟩

open Interpolation in
/-- Witness for C10: a concrete non-idle node (stored `3`, fresh `5`)
receiving a change event from its now-idle source emits
`(5, true), (5, true)` and then the forwarded parent event. -/
theorem C10_two_change_events_witness :
    ((mkNode srcFrameIdle cFive false (Val.num 3)).onParentChange
        (Event.change (Val.num 1) true)).2 =
      [Event.change (Val.num 5) true, Event.change (Val.num 5) true,
        Event.change (Val.num 1) true] :=
  (C10_two_change_events (mkNode srcFrameIdle cFive false (Val.num 3))
    (Val.num 1) (by decide) (by decide) (by decide)).1
